import Mathlib

/-!
Shallow embedding of the status-page API (`functions/api/status.js`):
the `getStatus` read handler and the `recordCheck` write handler with its
per-service history aggregation (merge-or-append of a day entry, status
escalation, response-time averaging, 30-entry trim), together with the
KV store state they read and write.
-/

namespace StatusPage

/-- A per-service check result as it appears in the POST body:
`{status, responseTime}`, either field possibly absent. -/
structure CheckResult where
  status : Option String
  responseTime : Option Int
  deriving Repr, DecidableEq

/-- One persisted day entry of a service history:
`{date, status, responseTime, checks}`. The `status` field is stored as a
plain string, exactly as the JS object holds it. -/
structure DayEntry where
  date : String
  status : String
  responseTime : Option Int
  checks : Int
  deriving Repr, DecidableEq

/-- JS truthiness of an optional string (absent, `null` and `""` are falsy). -/
def truthyStr : Option String → Bool
  | none => false
  | some s => s ≠ ""

/-- JS truthiness of an optional integer (absent, `null` and `0` are falsy). -/
def truthyInt : Option Int → Bool
  | none => false
  | some v => v ≠ 0

/-- The raw `checks[service]?.status` access: `none` when the service's
check or its `status` field is absent. -/
def rawStatus (c : Option CheckResult) : Option String :=
  c.bind (·.status)

/-- `checks[service]?.status || 'unknown'` — absent check, absent field or
empty string all fall back to `"unknown"`. -/
def incomingStatus (c : Option CheckResult) : String :=
  match rawStatus c with
  | none => "unknown"
  | some s => if s = "" then "unknown" else s

/-- `checks[service]?.responseTime || null` — absent check, absent field or
a reading of `0` all become `null`. -/
def incomingRT (c : Option CheckResult) : Option Int :=
  match c.bind (·.responseTime) with
  | none => none
  | some v => if v = 0 then none else some v

/-- The fresh entry built at the top of the per-service loop
(lines 90–95): `{date: today, status: ..., responseTime: ..., checks: 1}`. -/
def mkEntry (today : String) (c : Option CheckResult) : DayEntry :=
  { date := today, status := incomingStatus c, responseTime := incomingRT c, checks := 1 }

/-- `Math.round((a + b) / 2)` on integers: JS rounds halves toward `+∞`,
which on integer sums is floor division of `a + b + 1` by `2`. -/
def jsRoundHalf (a b : Int) : Int :=
  Int.fdiv (a + b + 1) 2

/-- Response-time folding of the update branch (lines 110–112): average
only when both the stored and the incoming value are truthy, otherwise the
entry keeps the (already normalised) incoming value. -/
def updateRT (existingRT incoming : Option Int) : Option Int :=
  if truthyInt existingRT && truthyInt incoming then
    match existingRT, incoming with
    | some a, some b => some (jsRoundHalf a b)
    | _, _ => incoming
  else incoming

/-- The update branch for an existing same-day entry (lines 97–114):
`checks` incremented, status escalated (`down` wins, then `partial`),
response time folded by `updateRT`. When neither escalation guard fires the
entry keeps the freshly built status `incomingStatus c`. -/
def updateEntry (existing : DayEntry) (today : String) (c : Option CheckResult) : DayEntry :=
  { date := today
    status :=
      if existing.status = "down" ∨ rawStatus c = some "down" then "down"
      else if existing.status = "partial" ∨ rawStatus c = some "degraded" then "partial"
      else incomingStatus c
    responseTime := updateRT existing.responseTime (incomingRT c)
    checks := existing.checks + 1 }

/-- `findIndex` + in-place replacement, or `push` when no entry matches
today's date: the first entry whose `date` equals `today` is replaced by
`updateEntry`, and when none matches the new entry is appended at the end. -/
def insertOrUpdate : List DayEntry → String → Option CheckResult → List DayEntry
  | [], today, c => [mkEntry today c]
  | e :: rest, today, c =>
      if e.date = today then updateEntry e today c :: rest
      else e :: insertOrUpdate rest today c

/-- `history.slice(-n)`: the last `n` elements (the whole list when it has
at most `n`). -/
def sliceLast (n : Nat) (l : List α) : List α :=
  l.drop (l.length - n)

/-- The whole per-service read-modify-write body (lines 88–121): merge or
append today's entry, then keep only the last 30 entries. -/
def aggregate (history : List DayEntry) (today : String) (c : Option CheckResult) :
    List DayEntry :=
  sliceLast 30 (insertOrUpdate history today c)

/-- The fixed monitored set. -/
inductive ServiceId
  | frontend
  | backend
  | database
  deriving DecidableEq, Repr

/-- `const services = ['frontend', 'backend', 'database']` — the iteration
order of the write loop. -/
def services : List ServiceId :=
  [ServiceId.frontend, ServiceId.backend, ServiceId.database]

/-- The KV key suffix of a service. -/
def keyOf : ServiceId → String
  | ServiceId.frontend => "frontend"
  | ServiceId.backend => "backend"
  | ServiceId.database => "database"

/-- The `latest` record `{...checks, timestamp}`; the empty JSON object
(the GET default) has no check entries and no timestamp. -/
structure LatestSnapshot where
  checks : ServiceId → Option CheckResult
  timestamp : Option Int

/-- The `{}` default used by GET when the `latest` key is absent. -/
def emptyLatest : LatestSnapshot :=
  { checks := fun _ => none, timestamp := none }

/-- The KV namespace as the handlers see it: the `latest` key and one
`uptime:<service>` key per service, each possibly absent. -/
structure Store where
  latest : Option LatestSnapshot
  uptime : ServiceId → Option (List DayEntry)

/-- The body of a GET response: one history array per service plus the
latest snapshot. -/
structure GetResponse where
  history : ServiceId → List DayEntry
  latest : LatestSnapshot

/-- `getStatus` (lines 41–56): read each service's history with default
`[]`, read `latest` with default `{}`; no write is performed, so the store
comes back unchanged. -/
def getStatus (store : Store) : GetResponse × Store :=
  ({ history := fun svc => (store.uptime svc).getD []
     latest := store.latest.getD emptyLatest }, store)

/-- A POST request: the `Authorization` header (possibly missing) and the
parsed body `{checks, timestamp}`. -/
structure RecordRequest where
  authHeader : Option String
  checks : ServiceId → Option CheckResult
  timestamp : Int

/-- `new Date(timestamp).toISOString().split('T')[0]`: epoch milliseconds
to a UTC calendar-date string. UTC day boundaries are exact multiples of
86400000 ms of JS epoch time, so this recoding of the date as the floor of
`ts / 86400000` identifies two timestamps exactly when the JS conversion
yields the same `YYYY-MM-DD` string. -/
def dateOf (ts : Int) : String :=
  toString (Int.fdiv ts 86400000)

/-- The auth guard (lines 62–68): reject only when `CRON_SECRET` is truthy
and the header differs from `Bearer <secret>`. -/
def authRejected (secret authHeader : Option String) : Bool :=
  match secret with
  | none => false
  | some s =>
      if s = "" then false
      else if authHeader = some ("Bearer " ++ s) then false
      else true

/-- One iteration of the write loop for one service: read its history
(default `[]`), aggregate, write the result back under its key. -/
def writeService (today : String) (checks : ServiceId → Option CheckResult)
    (st : Store) (svc : ServiceId) : Store :=
  { st with
    uptime := fun s =>
      if s = svc then some (aggregate ((st.uptime svc).getD []) today (checks svc))
      else st.uptime s }

/-- `recordCheck` (lines 61–129) with an always-successful store: auth
check, overwrite of `latest`, then the per-service loop; returns the HTTP
status and the final store. -/
def recordCheck (secret : Option String) (req : RecordRequest) (store : Store) :
    Nat × Store :=
  if authRejected secret req.authHeader then (401, store)
  else
    let today := dateOf req.timestamp
    let store1 := { store with latest := some ⟨req.checks, some req.timestamp⟩ }
    (200, services.foldl (writeService today req.checks) store1)

/-- The write loop over a fallible store: `failOn` tells which keys' puts
throw. An exception aborts the loop (there is no try/catch inside it) and
`onRequest` maps it to a 500 response; keys already written stay written. -/
def runWritesF (failOn : String → Bool) (today : String)
    (checks : ServiceId → Option CheckResult) :
    List ServiceId → Store → Nat × Store
  | [], st => (200, st)
  | svc :: rest, st =>
      if failOn ("uptime:" ++ keyOf svc) then (500, st)
      else runWritesF failOn today checks rest (writeService today checks st svc)

/-- `recordCheck` over the fallible store: the `latest` put and each
per-service put can throw, aborting the remaining sequential steps. -/
def recordCheckF (secret : Option String) (failOn : String → Bool)
    (req : RecordRequest) (store : Store) : Nat × Store :=
  if authRejected secret req.authHeader then (401, store)
  else if failOn "latest" then (500, store)
  else
    runWritesF failOn (dateOf req.timestamp) req.checks services
      { store with latest := some ⟨req.checks, some req.timestamp⟩ }

/-- Folding a sequence of record-check writes for one service over its
stored history: each element supplies the derived date string and the
service's incoming check. -/
def runAgg (writes : List (String × Option CheckResult)) (h : List DayEntry) :
    List DayEntry :=
  writes.foldl (fun acc w => aggregate acc w.1 w.2) h

/-! ### Basic lemmas about the trim and the merge-or-append step -/

lemma sliceLast_eq_of_le {l : List α} {n : Nat} (h : l.length ≤ n) :
    sliceLast n l = l := by
  simp [sliceLast, Nat.sub_eq_zero_of_le h]

lemma length_sliceLast_le (n : Nat) (l : List α) : (sliceLast n l).length ≤ n := by
  simp only [sliceLast, List.length_drop]
  omega

lemma sliceLast_sublist (n : Nat) (l : List α) : (sliceLast n l).Sublist l :=
  List.drop_sublist _ _

lemma map_sliceLast (f : α → β) (n : Nat) (l : List α) :
    (sliceLast n l).map f = sliceLast n (l.map f) := by
  simp [sliceLast, List.map_drop]

lemma sliceLast_append_singleton {n : Nat} (hn : 1 ≤ n) (l : List α) (x : α) :
    sliceLast n (l ++ [x]) = sliceLast (n - 1) l ++ [x] := by
  unfold sliceLast
  rw [List.length_append, List.drop_append_of_le_length (by simp; omega)]
  congr 2
  simp
  omega

lemma sliceLast_sliceLast {m n : Nat} (h : m ≤ n) (l : List α) :
    sliceLast m (sliceLast n l) = sliceLast m l := by
  unfold sliceLast
  rw [List.drop_drop, List.length_drop]
  congr 1
  omega

lemma insertOrUpdate_not_found {history : List DayEntry} {today : String}
    (c : Option CheckResult) (h : ∀ e ∈ history, e.date ≠ today) :
    insertOrUpdate history today c = history ++ [mkEntry today c] := by
  induction history with
  | nil => rfl
  | cons e rest ih =>
      have hne : e.date ≠ today := h e (List.mem_cons_self _ _)
      simp only [insertOrUpdate, if_neg hne, List.cons_append, List.cons.injEq, true_and]
      exact ih fun x hx => h x (List.mem_cons_of_mem _ hx)

lemma insertOrUpdate_middle {pre post : List DayEntry} {existing : DayEntry}
    {today : String} (c : Option CheckResult)
    (hpre : ∀ e ∈ pre, e.date ≠ today) (hex : existing.date = today) :
    insertOrUpdate (pre ++ existing :: post) today c
      = pre ++ updateEntry existing today c :: post := by
  induction pre with
  | nil => simp [insertOrUpdate, hex]
  | cons e rest ih =>
      have hne : e.date ≠ today := hpre e (List.mem_cons_self _ _)
      simp only [List.cons_append, insertOrUpdate, if_neg hne, List.cons.injEq, true_and]
      exact ih fun x hx => hpre x (List.mem_cons_of_mem _ hx)

/-! ### Claim theorems -/

/-- C1 (counterexample): an incoming `degraded` check on a day with no
existing entry is stored with status `"degraded"`, not the day-status
`"partial"` the claim predicts — no `mapToDayStatus` conversion happens on
the new-day path. -/
theorem C1_counterexample :
    aggregate [] "2024-10-04" (some ⟨some "degraded", none⟩)
        = [⟨"2024-10-04", "degraded", none, 1⟩]
      ∧ ("degraded" : String) ≠ "partial" :=
  ⟨rfl, by decide⟩

/-- C1 (amended): for a history with no entry dated today, the write
appends exactly one entry with `checks = 1`, the raw incoming status
(`"unknown"` when the check or its status is absent or empty — no
day-status mapping, so `degraded` is stored as `"degraded"`), the
normalised incoming response time, and then trims to the last 30. -/
theorem C1_new_day (history : List DayEntry) (today : String) (c : Option CheckResult)
    (h : ∀ e ∈ history, e.date ≠ today) :
    aggregate history today c
      = sliceLast 30 (history ++
          [{ date := today, status := incomingStatus c,
             responseTime := incomingRT c, checks := 1 }]) := by
  unfold aggregate
  rw [insertOrUpdate_not_found c h]
  rfl

/-- C1 witness: the amended statement evaluated on a concrete one-entry
history and an absent incoming check. -/
theorem C1_new_day_witness :
    aggregate [⟨"2024-10-03", "operational", some 5, 2⟩] "2024-10-04" none
      = sliceLast 30 ([⟨"2024-10-03", "operational", some 5, 2⟩] ++
          [{ date := "2024-10-04", status := incomingStatus none,
             responseTime := incomingRT none, checks := 1 }]) :=
  C1_new_day [⟨"2024-10-03", "operational", some 5, 2⟩] "2024-10-04" none
    (by intro e he; simp at he; subst he; decide)

/-- C2 (counterexample): a same-day write whose incoming check is absent
(hence status `unknown`) overrides an existing `"operational"` entry with
`"unknown"`, where the claim predicts the result stays `"operational"` and
that `unknown`/absent never overrides a known status. -/
theorem C2_counterexample :
    aggregate [⟨"2024-10-04", "operational", none, 1⟩] "2024-10-04" none
        = [⟨"2024-10-04", "unknown", none, 2⟩]
      ∧ ("unknown" : String) ≠ "operational" :=
  ⟨rfl, by decide⟩

/-- C2 (amended): for an existing same-day entry (first match, with a
history of at most 30 entries), the updated entry keeps its position and
its status is: `down` when the existing status is `down` or the incoming
status is `down`; else `partial` when the existing status is `partial` or
the incoming status is `degraded`; else the raw incoming status
(`"unknown"` when absent or empty) — so an incoming `unknown`/absent check
does override an existing status that is neither `down` nor `partial`. -/
theorem C2_escalation (pre post : List DayEntry) (existing : DayEntry)
    (today : String) (c : Option CheckResult)
    (hpre : ∀ e ∈ pre, e.date ≠ today) (hex : existing.date = today)
    (hlen : (pre ++ existing :: post).length ≤ 30) :
    ((aggregate (pre ++ existing :: post) today c)[pre.length]?).map (·.status)
      = some (if existing.status = "down" ∨ rawStatus c = some "down" then "down"
              else if existing.status = "partial" ∨ rawStatus c = some "degraded" then "partial"
              else incomingStatus c) := by
  unfold aggregate
  rw [insertOrUpdate_middle c hpre hex,
      sliceLast_eq_of_le (by simpa using hlen)]
  rw [List.getElem?_append_right (Nat.le_refl _)]
  simp [updateEntry]

/-- C2 witness: the amended statement at a concrete history — an existing
`operational` entry hit by an incoming `degraded` check escalates to
`partial`. -/
theorem C2_escalation_witness :
    ((aggregate ([] ++ ⟨"2024-10-04", "operational", none, 1⟩ :: [])
          "2024-10-04" (some ⟨some "degraded", some 40⟩))[0]?).map (·.status)
      = some (if ("operational" : String) = "down"
                  ∨ rawStatus (some ⟨some "degraded", some 40⟩) = some "down" then "down"
              else if ("operational" : String) = "partial"
                  ∨ rawStatus (some ⟨some "degraded", some 40⟩) = some "degraded" then "partial"
              else incomingStatus (some ⟨some "degraded", some 40⟩)) :=
  C2_escalation [] [] ⟨"2024-10-04", "operational", none, 1⟩ "2024-10-04"
    (some ⟨some "degraded", some 40⟩) (by simp) rfl (by simp)

/-- C3 (counterexample): with an existing stored response time of 80 and an
incoming check carrying no response time, the updated entry stores `null`
— the claim predicts the existing 80 is kept. -/
theorem C3_counterexample :
    aggregate [⟨"2024-10-04", "operational", some 80, 1⟩] "2024-10-04"
        (some ⟨some "operational", none⟩)
        = [⟨"2024-10-04", "operational", none, 2⟩]
      ∧ (none : Option Int) ≠ some 80 :=
  ⟨rfl, by decide⟩

/-- C3 (amended): same-day response-time folding — when both the stored
and the incoming value are present and nonzero the result is their mean
rounded half-up; when only the incoming value is present (nonzero) it is
kept; when the incoming value is absent the result is `null` even if a
stored value exists (the stored value is discarded, not kept); when
neither is present the result is `null`. -/
theorem C3_response_time :
    (∀ (e : DayEntry) (today : String) (st : Option String) (a b : Int),
        e.responseTime = some a → a ≠ 0 → b ≠ 0 →
        (updateEntry e today (some ⟨st, some b⟩)).responseTime = some (jsRoundHalf a b))
  ∧ (∀ (e : DayEntry) (today : String) (st : Option String) (b : Int),
        e.responseTime = none → b ≠ 0 →
        (updateEntry e today (some ⟨st, some b⟩)).responseTime = some b)
  ∧ (∀ (e : DayEntry) (today : String) (st : Option String) (a : Int),
        e.responseTime = some a →
        (updateEntry e today (some ⟨st, none⟩)).responseTime = none)
  ∧ (∀ (e : DayEntry) (today : String) (st : Option String),
        e.responseTime = none →
        (updateEntry e today (some ⟨st, none⟩)).responseTime = none) := by
  refine ⟨?_, ?_, ?_, ?_⟩
  · intro e today st a b ha ha0 hb0
    simp [updateEntry, updateRT, incomingRT, truthyInt, ha, ha0, hb0]
  · intro e today st b hnone hb0
    simp [updateEntry, updateRT, incomingRT, truthyInt, hnone, hb0]
  · intro e today st a ha
    simp [updateEntry, updateRT, incomingRT, truthyInt, ha]
  · intro e today st hnone
    simp [updateEntry, updateRT, incomingRT, truthyInt, hnone]

/-- C3 witness: the averaging case at 100 and 200 yields 150. -/
theorem C3_response_time_witness :
    (updateEntry ⟨"2024-10-04", "operational", some 100, 1⟩ "2024-10-04"
        (some ⟨some "operational", some 200⟩)).responseTime = some 150 := by
  have h := C3_response_time.1 ⟨"2024-10-04", "operational", some 100, 1⟩
    "2024-10-04" (some "operational") 100 200 rfl (by decide) (by decide)
  rw [h]
  decide

lemma find?_date_decomp {history : List DayEntry} {today : String} {e : DayEntry}
    (hfind : history.find? (fun x => x.date == today) = some e) :
    ∃ pre post, history = pre ++ e :: post ∧ (∀ x ∈ pre, x.date ≠ today)
      ∧ e.date = today := by
  induction history with
  | nil => simp at hfind
  | cons x rest ih =>
      rw [List.find?_cons] at hfind
      by_cases hx : x.date = today
      · simp only [hx, beq_self_eq_true, if_true] at hfind
        cases hfind
        exact ⟨[], rest, rfl, by simp, hx⟩
      · have hb : (x.date == today) = false := beq_eq_false_iff_ne.mpr hx
        simp only [hb, Bool.false_eq_true, if_false] at hfind
        obtain ⟨pre, post, hsplit, hpre, hex⟩ := ih hfind
        exact ⟨x :: pre, post, by simp [hsplit], by
          intro a ha
          rcases List.mem_cons.mp ha with h | h
          · subst h; exact hx
          · exact hpre a h, hex⟩

lemma find?_date_middle {pre post : List DayEntry} {x : DayEntry} {today : String}
    (hpre : ∀ a ∈ pre, a.date ≠ today) (hx : x.date = today) :
    (pre ++ x :: post).find? (fun a => a.date == today) = some x := by
  induction pre with
  | nil => simp [List.find?, hx]
  | cons a rest ih =>
      have hne : a.date ≠ today := hpre a (List.mem_cons_self _ _)
      have hb : (a.date == today) = false := beq_eq_false_iff_ne.mpr hne
      simp only [List.cons_append, List.find?_cons, hb, Bool.false_eq_true, if_false]
      exact ih fun b hb => hpre b (List.mem_cons_of_mem _ hb)

/-- C4: escalation is monotonic within a day — when the stored entry for
today (the first entry whose date matches, in a history of at most 30
entries) has status `down`, the write leaves today's entry at `down`
whatever the incoming check is. -/
theorem C4_down_monotonic (history : List DayEntry) (today : String)
    (c : Option CheckResult) (e : DayEntry)
    (hlen : history.length ≤ 30)
    (hfind : history.find? (fun x => x.date == today) = some e)
    (hdown : e.status = "down") :
    ((aggregate history today c).find? (fun x => x.date == today)).map (·.status)
      = some "down" := by
  obtain ⟨pre, post, hsplit, hpre, hex⟩ := find?_date_decomp hfind
  subst hsplit
  unfold aggregate
  rw [insertOrUpdate_middle c hpre hex, sliceLast_eq_of_le (by simpa using hlen)]
  rw [find?_date_middle hpre rfl]
  simp [updateEntry, hdown]

/-- C4 witness: a day already at `down` stays `down` under an incoming
`operational` check. -/
theorem C4_down_monotonic_witness :
    ((aggregate [⟨"2024-10-04", "down", none, 3⟩] "2024-10-04"
          (some ⟨some "operational", some 5⟩)).find?
        (fun x => x.date == "2024-10-04")).map (·.status) = some "down" :=
  C4_down_monotonic [⟨"2024-10-04", "down", none, 3⟩] "2024-10-04"
    (some ⟨some "operational", some 5⟩) ⟨"2024-10-04", "down", none, 3⟩
    (by decide) (by decide) rfl

lemma runAgg_dates (writes : List (String × Option CheckResult)) (P : List String)
    (H : List DayEntry) (hH : H.map (·.date) = sliceLast 30 P)
    (hnd : (P ++ writes.map Prod.fst).Nodup) :
    (runAgg writes H).map (·.date) = sliceLast 30 (P ++ writes.map Prod.fst) := by
  induction writes generalizing P H with
  | nil => simpa using hH
  | cons w rest ih =>
      obtain ⟨d, c⟩ := w
      have hassoc : P ++ (d :: rest.map Prod.fst) = (P ++ [d]) ++ rest.map Prod.fst := by
        simp
      rw [List.map_cons] at hnd
      have hnd2 : ((P ++ [d]) ++ rest.map Prod.fst).Nodup := by
        rw [← hassoc]; exact hnd
      have hdP : d ∉ P := by
        rcases List.nodup_append.mp hnd with ⟨-, -, hdisj⟩
        intro hmem
        exact hdisj hmem (List.mem_cons_self _ _)
      have hfresh : ∀ e ∈ H, e.date ≠ d := by
        intro e he heq
        apply hdP
        have : e.date ∈ H.map (·.date) := List.mem_map_of_mem _ he
        rw [hH] at this
        exact heq ▸ (sliceLast_sublist 30 P).mem this
      have hstep : (aggregate H d c).map (·.date) = sliceLast 30 (P ++ [d]) := by
        unfold aggregate
        rw [insertOrUpdate_not_found c hfresh, map_sliceLast, List.map_append, hH]
        have h1 : sliceLast 30 (sliceLast 30 P ++ [mkEntry d c].map (·.date))
            = sliceLast 29 (sliceLast 30 P) ++ [d] := by
          simpa using sliceLast_append_singleton (by omega) (sliceLast 30 P) d
        have h2 : sliceLast 30 (P ++ [d]) = sliceLast 29 P ++ [d] := by
          simpa using sliceLast_append_singleton (n := 30) (by omega) P d
        rw [h1, sliceLast_sliceLast (by omega), h2]
      have : runAgg (⟨d, c⟩ :: rest) H = runAgg rest (aggregate H d c) := rfl
      rw [this, List.map_cons, hassoc]
      exact ih (P ++ [d]) (aggregate H d c) hstep hnd2

/-- C5: retention — every write leaves at most 30 entries; and for a run of
writes with pairwise-distinct dates starting from an empty history, the
stored dates are exactly the last 30 written dates in write order (so with
more than 30 distinct dates the history holds exactly the 30 most recent,
oldest first). -/
theorem C5_retention :
    (∀ (history : List DayEntry) (today : String) (c : Option CheckResult),
        (aggregate history today c).length ≤ 30)
  ∧ (∀ writes : List (String × Option CheckResult),
        (writes.map Prod.fst).Nodup →
        (runAgg writes []).map (·.date) = sliceLast 30 (writes.map Prod.fst))
  ∧ (∀ writes : List (String × Option CheckResult),
        (writes.map Prod.fst).Nodup → 30 < writes.length →
        (runAgg writes []).length = 30) := by
  have hmain : ∀ writes : List (String × Option CheckResult),
      (writes.map Prod.fst).Nodup →
      (runAgg writes []).map (·.date) = sliceLast 30 (writes.map Prod.fst) := by
    intro writes hnd
    have := runAgg_dates writes [] [] (by simp [sliceLast]) (by simpa using hnd)
    simpa using this
  refine ⟨?_, hmain, ?_⟩
  · intro history today c
    exact length_sliceLast_le 30 _
  · intro writes hnd hlen
    have h := hmain writes hnd
    have h1 : (runAgg writes []).length = ((runAgg writes []).map (·.date)).length := by
      simp
    rw [h1, h]
    simp only [sliceLast, List.length_drop, List.length_map]
    omega

/-- C5 witness: the date formula applied to a concrete 2-write run, and the
exactly-30 length applied to a concrete 31-write run over distinct dates. -/
theorem C5_retention_witness :
    (runAgg [("2024-10-03", none), ("2024-10-04", none)] []).map (·.date)
        = sliceLast 30 ["2024-10-03", "2024-10-04"]
      ∧ (runAgg ((List.range 31).map fun i => (toString i, none)) []).length = 30 := by
  constructor
  · have h := C5_retention.2.1 [("2024-10-03", none), ("2024-10-04", none)] (by decide)
    simpa using h
  · exact C5_retention.2.2 ((List.range 31).map fun i => (toString i, none))
      (by decide) (by decide)

lemma mem_dates_insertOrUpdate {y : String} {history : List DayEntry} {today : String}
    {c : Option CheckResult}
    (hy : y ∈ (insertOrUpdate history today c).map (·.date)) :
    y ∈ history.map (·.date) ∨ y = today := by
  induction history with
  | nil =>
      simp [insertOrUpdate, mkEntry] at hy
      exact Or.inr hy
  | cons e rest ih =>
      by_cases he : e.date = today
      · simp only [insertOrUpdate, if_pos he, List.map_cons, List.mem_cons] at hy
        rcases hy with h | h
        · exact Or.inr (by simpa [updateEntry] using h)
        · exact Or.inl (by rw [List.map_cons]; exact List.mem_cons_of_mem _ h)
      · simp only [insertOrUpdate, if_neg he, List.map_cons, List.mem_cons] at hy
        rcases hy with h | h
        · exact Or.inl (by rw [List.map_cons, h]; exact List.mem_cons_self _ _)
        · rcases ih h with h2 | h2
          · exact Or.inl (by rw [List.map_cons]; exact List.mem_cons_of_mem _ h2)
          · exact Or.inr h2

lemma nodup_dates_insertOrUpdate {history : List DayEntry} {today : String}
    (c : Option CheckResult) (h : (history.map (·.date)).Nodup) :
    ((insertOrUpdate history today c).map (·.date)).Nodup := by
  induction history with
  | nil => simp [insertOrUpdate]
  | cons e rest ih =>
      rw [List.map_cons, List.nodup_cons] at h
      obtain ⟨hnot, hrest⟩ := h
      by_cases he : e.date = today
      · simp only [insertOrUpdate, if_pos he, List.map_cons, List.nodup_cons]
        refine ⟨?_, hrest⟩
        show (updateEntry e today c).date ∉ rest.map (·.date)
        have : (updateEntry e today c).date = e.date := by simp [updateEntry, he]
        rw [this]
        exact hnot
      · simp only [insertOrUpdate, if_neg he, List.map_cons, List.nodup_cons]
        refine ⟨?_, ih hrest⟩
        intro hmem
        rcases mem_dates_insertOrUpdate hmem with h2 | h2
        · exact hnot h2
        · exact he h2

/-- C6: date uniqueness is preserved — when no two entries of the stored
history share a date, the history after a record-check write also has
pairwise-distinct dates (a same-date write replaces the first matching
entry in place; a new entry is appended only when no entry matches). -/
theorem C6_unique_dates (history : List DayEntry) (today : String)
    (c : Option CheckResult) (h : (history.map (·.date)).Nodup) :
    ((aggregate history today c).map (·.date)).Nodup := by
  unfold aggregate
  exact ((sliceLast_sublist 30 _).map _ |>.nodup
    (nodup_dates_insertOrUpdate c h))

/-- C6 witness: uniqueness preserved on a concrete two-entry history hit by
a same-day update. -/
theorem C6_unique_dates_witness :
    ((aggregate [⟨"2024-10-03", "operational", none, 1⟩,
        ⟨"2024-10-04", "operational", none, 1⟩] "2024-10-04"
        (some ⟨some "down", none⟩)).map (·.date)).Nodup :=
  C6_unique_dates [⟨"2024-10-03", "operational", none, 1⟩,
    ⟨"2024-10-04", "operational", none, 1⟩] "2024-10-04"
    (some ⟨some "down", none⟩) (by decide)

/-- C7: the auth gate — with a nonempty secret configured, any POST whose
`Authorization` header is not exactly `Bearer <secret>` (a missing header
included) gets a 401 and leaves the store untouched; with no secret
configured the check is skipped: the request succeeds with 200, `latest`
is overwritten, and every service's history is aggregated and written. -/
theorem C7_auth_gate :
    (∀ (s : String) (req : RecordRequest) (store : Store),
        s ≠ "" → req.authHeader ≠ some ("Bearer " ++ s) →
        recordCheck (some s) req store = (401, store))
  ∧ (∀ (req : RecordRequest) (store : Store),
        (recordCheck none req store).1 = 200
      ∧ (recordCheck none req store).2.latest = some ⟨req.checks, some req.timestamp⟩
      ∧ ∀ svc, (recordCheck none req store).2.uptime svc
          = some (aggregate ((store.uptime svc).getD []) (dateOf req.timestamp)
              (req.checks svc))) := by
  constructor
  · intro s req store hs hhdr
    simp [recordCheck, authRejected, hs, hhdr]
  · intro req store
    refine ⟨rfl, rfl, ?_⟩
    intro svc
    cases svc <;> rfl

/-- C7 witness: secret `"abc"` rejects header `Bearer wrong` without
touching a concrete store; with no secret the same request succeeds and
writes. -/
theorem C7_auth_gate_witness :
    recordCheck (some "abc")
        ⟨some "Bearer wrong", fun _ => none, 0⟩ ⟨none, fun _ => none⟩
      = (401, ⟨none, fun _ => none⟩)
  ∧ (recordCheck none ⟨some "Bearer wrong", fun _ => none, 0⟩
        ⟨none, fun _ => none⟩).1 = 200 :=
  ⟨C7_auth_gate.1 "abc" ⟨some "Bearer wrong", fun _ => none, 0⟩ ⟨none, fun _ => none⟩
      (by decide) (by simp),
    (C7_auth_gate.2 ⟨some "Bearer wrong", fun _ => none, 0⟩ ⟨none, fun _ => none⟩).1⟩

/-- C9: read defaults — GET returns the store unchanged, serves every
monitored service's history (the stored array, or `[]` when the service's
key is absent), and serves the empty snapshot when the `latest` key is
absent. -/
theorem C9_read_defaults (store : Store) :
    (getStatus store).2 = store
  ∧ (∀ svc, (getStatus store).1.history svc = (store.uptime svc).getD [])
  ∧ (∀ svc, store.uptime svc = none → (getStatus store).1.history svc = [])
  ∧ (store.latest = none → (getStatus store).1.latest = emptyLatest) := by
  refine ⟨rfl, fun svc => rfl, ?_, ?_⟩
  · intro svc h
    simp [getStatus, h]
  · intro h
    simp [getStatus, h]

/-- C9 witness: GET on the empty store yields empty histories and the empty
snapshot, and changes nothing. -/
theorem C9_read_defaults_witness :
    (getStatus ⟨none, fun _ => none⟩).1.history ServiceId.backend = []
  ∧ (getStatus ⟨none, fun _ => none⟩).1.latest = emptyLatest :=
  ⟨(C9_read_defaults ⟨none, fun _ => none⟩).2.2.1 ServiceId.backend rfl,
    (C9_read_defaults ⟨none, fun _ => none⟩).2.2.2 rfl⟩

/-- C10: a response time of exactly 0 is treated as absent — an incoming
check with `responseTime = 0` yields a stored `null` response time, on the
new-day path (`mkEntry`) and on the same-day update path (`updateEntry`)
alike, and is never averaged with an existing stored value. -/
theorem C10_zero_response_time (e : DayEntry) (today : String) (st : Option String) :
    (mkEntry today (some ⟨st, some 0⟩)).responseTime = none
  ∧ (updateEntry e today (some ⟨st, some 0⟩)).responseTime = none := by
  constructor
  · simp [mkEntry, incomingRT]
  · simp [updateEntry, updateRT, incomingRT, truthyInt]

/-- C8 (counterexample): with a store whose put on `uptime:frontend`
throws — and succeeds on every other key — an authorised POST ends in a
500 and `uptime:backend` is never written (it stays absent), although a
completed backend write stores a nonempty history: the loop has no
per-service error handling, so one service's failure aborts the rest. -/
theorem C8_counterexample :
    (recordCheckF none (fun k => k == "uptime:frontend")
        ⟨none, fun _ => none, 0⟩ ⟨none, fun _ => none⟩).1 = 500
  ∧ (recordCheckF none (fun k => k == "uptime:frontend")
        ⟨none, fun _ => none, 0⟩ ⟨none, fun _ => none⟩).2.uptime ServiceId.backend
      = none
  ∧ (fun k => k == "uptime:frontend") "uptime:backend" = false
  ∧ aggregate [] (dateOf 0) none ≠ [] :=
  ⟨rfl, rfl, by decide, by decide⟩

/-- C8 (amended): the three per-service read-modify-write steps run
sequentially in the order frontend, backend, database with no per-service
error isolation — the first failing step aborts the remaining services'
writes and surfaces a 500, while the `latest` write and the per-service
writes already performed persist. -/
theorem C8_sequential_abort (secret : Option String) (failOn : String → Bool)
    (req : RecordRequest) (store : Store)
    (hauth : authRejected secret req.authHeader = false)
    (hlatest : failOn "latest" = false) :
    (failOn "uptime:frontend" = true →
        recordCheckF secret failOn req store
          = (500, { store with latest := some ⟨req.checks, some req.timestamp⟩ }))
  ∧ (failOn "uptime:frontend" = false → failOn "uptime:backend" = true →
        recordCheckF secret failOn req store
          = (500, writeService (dateOf req.timestamp) req.checks
              { store with latest := some ⟨req.checks, some req.timestamp⟩ }
              ServiceId.frontend))
  ∧ (failOn "uptime:frontend" = false → failOn "uptime:backend" = false →
      failOn "uptime:database" = true →
        recordCheckF secret failOn req store
          = (500, writeService (dateOf req.timestamp) req.checks
              (writeService (dateOf req.timestamp) req.checks
                { store with latest := some ⟨req.checks, some req.timestamp⟩ }
                ServiceId.frontend)
              ServiceId.backend)) := by
  refine ⟨?_, ?_, ?_⟩
  · intro h1
    simp [recordCheckF, runWritesF, services, keyOf, hauth, hlatest, h1]
  · intro h1 h2
    simp [recordCheckF, runWritesF, services, keyOf, hauth, hlatest, h1, h2]
  · intro h1 h2 h3
    simp [recordCheckF, runWritesF, services, keyOf, hauth, hlatest, h1, h2, h3]

/-- C8 witness: the amended statement at the counterexample's input — the
frontend put fails, the request returns 500 with only `latest` written. -/
theorem C8_sequential_abort_witness :
    recordCheckF none (fun k => k == "uptime:frontend")
        ⟨none, fun _ => none, 0⟩ ⟨none, fun _ => none⟩
      = (500, { latest := some ⟨fun _ => none, some 0⟩, uptime := fun _ => none }) :=
  (C8_sequential_abort none (fun k => k == "uptime:frontend")
      ⟨none, fun _ => none, 0⟩ ⟨none, fun _ => none⟩ rfl rfl).1 rfl

end StatusPage
